import Mathlib

/-!
Verification of the Galdoba/appcontext repository: a shallow embedding of
the pathspec layout model, the jsonstore key/value stores (v1 and v2), and
the configmanager typed configuration store, with theorems settling the
specification claims about them.

Conventions of the embedding:
* Go machine integers (uint8/uint16/uint32/uint64/int64) are modelled as
  `Nat`; none of the verified properties depends on wrap-around.
* Go maps `map[string]T` are modelled as association lists
  `List (String × T)` whose key lists are `Nodup`; Go map iteration order
  never matters in the verified code paths (the hybrid marshaller sorts
  its keys first).
* Filesystem and serialization-library calls (`os.*`, `encoding/json`,
  yaml, toml) are external collaborators per the specification; they are
  modelled as explicit oracle parameters (function-valued structures or
  fault flags) so that every embedded operation is a pure function of its
  inputs.
* Fallible Go functions returning `error` are modelled with
  `Except String` (or `Option` where only presence matters).
-/

namespace fsmodel

/-- A filesystem snapshot: each path maps to a file content, or to `none`
when no file exists at that path. -/
def FileSys : Type := String → Option String

/-- Create or overwrite the file at `p` with content `c`. -/
def fsSet (fs : FileSys) (p c : String) : FileSys :=
  fun q => if q = p then some c else fs q

/-- Remove the file at `p` (no-op when absent, like an ignored
`os.Remove` error). -/
def fsErase (fs : FileSys) (p : String) : FileSys :=
  fun q => if q = p then none else fs q

end fsmodel

namespace pathspec

/-- Base directory kinds from the pathspec package: `Config`, `Data`,
`Cache`, `Runtime`, `Temp` are the five declared `BaseDirType` constants
(`uint8` iota values 0..4); other numeric values are representable, as in Go. -/
def Config : Nat := 0

/-- Constant `Data BaseDirType = 1`. -/
def Data : Nat := 1

/-- Constant `Cache BaseDirType = 2`. -/
def Cache : Nat := 2

/-- Constant `Runtime BaseDirType = 3`. -/
def Runtime : Nat := 3

/-- Constant `Temp BaseDirType = 4`. -/
def Temp : Nat := 4

/-- Constant `FileType PathType = 0`. -/
def FileType : Nat := 0

/-- Constant `DirectoryType PathType = 1`. -/
def DirectoryType : Nat := 1

/-- Constant `SymlinkType PathType = 2`. -/
def SymlinkType : Nat := 2

/-- Constant `CategoryConfig PathCategory = 0`. -/
def CategoryConfig : Nat := 0

/-- Constant `CategoryData PathCategory = 1`. -/
def CategoryData : Nat := 1

/-- Constant `CategoryCache PathCategory = 2`. -/
def CategoryCache : Nat := 2

/-- Constant `CategoryRuntime PathCategory = 3`. -/
def CategoryRuntime : Nat := 3

/-- Constant `CategoryTemp PathCategory = 4`. -/
def CategoryTemp : Nat := 4

/-- The `Path` struct of the pathspec package (one file or directory the
application owns).  Field defaults are the Go zero values. -/
structure Path where
  AppName : String := ""
  Name : String := ""
  BaseDir : Nat := 0
  Groupcategory : String := ""
  Subcategory : String := ""
  PathType : Nat := 0
  Category : Nat := 0
  Priority : Nat := 0
  Description : String := ""
  Pattern : String := ""
  DefaultPerm : Nat := 0
  OwnerOnly : Bool := false
  IsMandatory : Bool := false
  IsAutoCreated : Bool := false
  IsBackedUp : Bool := false
  IsVersioned : Bool := false
  IsCompressible : Bool := false
  MaxSize : Nat := 0
  Format : String := ""
  MaxChildren : Nat := 0
  HasSubdirs : Bool := false
  RetentionDays : Nat := 0
  CleanupAge : Nat := 0
deriving DecidableEq, Inhabited

/-- The `ValidSubcategories` closed lookup table combined with `isValid`:
`isValid(c, s)` returns the table entry for category `c` and subcategory
`s`, and `false` when the category has no table entry. -/
def isValid (c : Nat) (s : String) : Bool :=
  if c = CategoryConfig then s == "" || s == "templates" || s == "plugins"
  else if c = CategoryData then
    s == "database" || s == "storage" || s == "state" || s == "resources" ||
    s == "processes" || s == "projects" || s == "backups" || s == "uploads" ||
    s == "exports"
  else if c = CategoryCache then s == "cache" || s == "thumbnails"
  else if c = CategoryRuntime then s == "logs" || s == "stats"
  else if c = CategoryTemp then s == "locks" || s == "sockets" || s == "processing"
  else false

/-- Function `validate` from the pathspec package: checks a `Path` for conflicting
parameters, short-circuiting on the first violation. -/
def validate (p : Path) : Except String Unit :=
  if p.AppName = "" then .error "AppName cannot be empty"
  else if p.Name = "" then .error "Name cannot be empty"
  else if p.PathType = FileType ∧ p.MaxChildren > 0 then
    .error "MaxChildren cannot be set for file type"
  else if p.PathType = FileType ∧ p.HasSubdirs = true then
    .error "HasSubdirs cannot be true for file type"
  else if p.PathType = DirectoryType ∧ p.MaxSize > 0 then
    .error "MaxSize cannot be set for directory type"
  else if p.PathType = DirectoryType ∧ p.Format ≠ "" then
    .error "Format cannot be set for directory type"
  else if p.RetentionDays > 0 ∧ p.CleanupAge > 0 ∧ p.CleanupAge > p.RetentionDays then
    .error "CleanupAge cannot be greater than RetentionDays"
  else if p.IsVersioned = true ∧ p.Category ≠ CategoryConfig then
    .error "Versioning is only applicable for config files"
  else if p.Subcategory ≠ "" ∧ ¬ isValid p.Category p.Subcategory = true then
    .error ("subcategory " ++ p.Subcategory ++ " is not valid for category")
  else if p.DefaultPerm = 0 then
    .error "permissions 0000 are invalid and make files inaccessible"
  else .ok ()

/-- The conjunction of the §3 invariants on a `Path`, stated in the
specification's own words (spec side of the refinement for claim C4). -/
def pathInvariants (p : Path) : Prop :=
  p.Name ≠ "" ∧ p.AppName ≠ "" ∧ p.DefaultPerm ≠ 0 ∧
  (p.PathType = FileType → p.MaxChildren = 0 ∧ p.HasSubdirs = false) ∧
  (p.PathType = DirectoryType → p.MaxSize = 0 ∧ p.Format = "") ∧
  (p.RetentionDays > 0 → p.CleanupAge > 0 → p.CleanupAge ≤ p.RetentionDays) ∧
  (p.IsVersioned = true → p.Category = CategoryConfig) ∧
  (p.Subcategory ≠ "" → isValid p.Category p.Subcategory = true)

instance (p : Path) : Decidable (pathInvariants p) := by
  unfold pathInvariants
  infer_instance

/-- The `Layout` struct: ordered per-base-directory-kind buckets of paths,
plus the application name/version. -/
structure Layout where
  AppName : String := ""
  AppVersion : String := ""
  ConfigPaths : List Path := []
  DataPaths : List Path := []
  CachePaths : List Path := []
  RuntimePaths : List Path := []
  TempPaths : List Path := []
deriving DecidableEq, Inhabited

/-- Method `Layout.GetAllPaths`: concatenation of all buckets, config first. -/
def Layout.GetAllPaths (l : Layout) : List Path :=
  l.ConfigPaths ++ l.DataPaths ++ l.CachePaths ++ l.RuntimePaths ++ l.TempPaths

/-- The `if path.AppName == "" { path.AppName = appname }` fill step used by
both `NewLayout` and `Import`. -/
def fillAppName (app : String) (p : Path) : Path :=
  if p.AppName = "" then { p with AppName := app } else p

/-- The `switch path.BaseDir` bucketing step of `NewLayout`; a `BaseDir`
matching none of the five cases leaves the layout unchanged. -/
def bucket (l : Layout) (p : Path) : Layout :=
  if p.BaseDir = Config then { l with ConfigPaths := l.ConfigPaths ++ [p] }
  else if p.BaseDir = Data then { l with DataPaths := l.DataPaths ++ [p] }
  else if p.BaseDir = Cache then { l with CachePaths := l.CachePaths ++ [p] }
  else if p.BaseDir = Runtime then { l with RuntimePaths := l.RuntimePaths ++ [p] }
  else if p.BaseDir = Temp then { l with TempPaths := l.TempPaths ++ [p] }
  else l

/-- The empty layout literal `NewLayout` starts from. -/
def emptyLayout (app : String) : Layout := { AppName := app }

/-- The entry loop of `NewLayout`: fill missing AppName, validate (failing
on the first invalid entry), then bucket. -/
def NewLayoutLoop (app : String) : List Path → Layout → Except String Layout
  | [], acc => .ok acc
  | p :: rest, acc =>
    match validate (fillAppName app p) with
    | .error e =>
      .error ("validation failed for path " ++ (fillAppName app p).Name ++ ": " ++ e)
    | .ok _ => NewLayoutLoop app rest (bucket acc (fillAppName app p))

/-- Function `NewLayout` from the pathspec package. -/
def NewLayout (app : String) (paths : List Path) : Except String Layout :=
  NewLayoutLoop app paths (emptyLayout app)

/-- The validation loop of `Import`: each entry is validated on a loop-local
copy with the layout-level AppName filled in; nothing is written back. -/
def importCheck (app : String) : List Path → Except String Unit
  | [] => .ok ()
  | p :: rest =>
    match validate (fillAppName app p) with
    | .error e =>
      .error ("validation failed for path " ++ (fillAppName app p).Name ++ ": " ++ e)
    | .ok _ => importCheck app rest

/-- Function `Import` from the pathspec package, modelled after JSON decoding: the
decoded `Layout` is the argument (file opening and `json.Decode` are
external); on success the decoded layout is returned as-is. -/
def importLayout (l : Layout) : Except String Layout :=
  match importCheck l.AppName l.GetAllPaths with
  | .error e => .error e
  | .ok _ => .ok l

/-- Filesystem oracle for `Layout.Generate`: path rendering (the external
PathResolver), `os.MkdirAll` (`none` = success, `some e` = error message),
`os.Stat` returning an IsNotExist error, `os.OpenFile` creation, and
`filepath.Dir`. -/
structure GenFS where
  render : Path → String
  mkdirAll : String → Nat → Option String
  statMissing : String → Bool
  createFile : String → Nat → Option String
  parentDir : String → String

/-- The per-entry body of `Layout.Generate`'s loop (after the entry passed
re-validation): the list of error strings this entry appends. -/
def generateEntry (fs : GenFS) (p : Path) : List String :=
  let fullPath := fs.render p
  if p.PathType = DirectoryType then
    match fs.mkdirAll fullPath p.DefaultPerm with
    | some e => ["directory " ++ fullPath ++ ": " ++ e]
    | none => []
  else if p.PathType = FileType then
    match fs.mkdirAll (fs.parentDir fullPath) 493 with
    | some e => ["parent directory for " ++ fullPath ++ ": " ++ e]
    | none =>
      if fs.statMissing fullPath then
        match fs.createFile fullPath p.DefaultPerm with
        | some e => ["file " ++ fullPath ++ ": " ++ e]
        | none => []
      else []
  else if p.PathType = SymlinkType then
    ["symlink " ++ fullPath ++ ": symlink creation not supported"]
  else []

/-- Result of `Layout.Generate`: an early `return` on a validation failure,
or the completed run with its collected per-entry error strings. -/
inductive GenResult where
  | aborted (msg : String)
  | completed (errs : List String)
deriving DecidableEq

/-- Predicate that holds when `Generate` returns a nil error, that is, exactly for a completed run with no
collected errors. -/
def genOk : GenResult → Bool
  | .completed [] => true
  | _ => false

/-- The entry loop of `Layout.Generate`: re-validate (returning immediately
on the first invalid entry), else collect the entry's errors. -/
def generateLoop (fs : GenFS) : List Path → List String → GenResult
  | [], errs => .completed errs
  | p :: rest, errs =>
    match validate p with
    | .error e => .aborted ("generation imposible: invalid path: " ++ p.Name ++ ": " ++ e)
    | .ok _ => generateLoop fs rest (errs ++ generateEntry fs p)

/-- Method `Layout.Generate` from the pathspec package. -/
def Layout.generate (fs : GenFS) (l : Layout) : GenResult :=
  generateLoop fs l.GetAllPaths []

/-- Result of `os.Stat` as `Layout.Assess` distinguishes it: an IsNotExist
error, another access error, or file info (IsDir, Mode().Perm(), Size()). -/
inductive StatRes where
  | notExist
  | accessErr (e : String)
  | found (isDir : Bool) (perm : Nat) (size : Nat)
deriving DecidableEq

/-- Filesystem oracle for `Layout.Assess`: path rendering, `os.Stat`, and
`os.ReadDir` (child count or error). -/
structure AssessFS where
  render : Path → String
  stat : String → StatRes
  readDir : String → Except String Nat

/-- The per-entry body of `Layout.Assess`'s loop: the discrepancy messages
this entry appends. -/
def assessEntry (fs : AssessFS) (p : Path) : List String :=
  let fullPath := fs.render p
  match fs.stat fullPath with
  | .notExist =>
    if p.IsMandatory = true then ["mandatory path does not exist: " ++ fullPath] else []
  | .accessErr e => ["cannot access path " ++ fullPath ++ ": " ++ e]
  | .found isDir perm size =>
    if (p.PathType = FileType ∧ isDir = true) ∨ (p.PathType = DirectoryType ∧ isDir = false) then
      ["path type mismatch: " ++ fullPath]
    else
      (if perm = 0 then
        ["invalid permissions 0000 for " ++ fullPath ++ ": file is completely inaccessible"]
      else []) ++
      (if ¬ perm = p.DefaultPerm then ["permissions mismatch for " ++ fullPath] else []) ++
      (if p.PathType = FileType ∧ p.MaxSize > 0 ∧ size > p.MaxSize then
        ["file size exceeds limit for " ++ fullPath]
      else []) ++
      (if p.PathType = DirectoryType ∧ p.MaxChildren > 0 then
        match fs.readDir fullPath with
        | .error e => ["cannot read directory " ++ fullPath ++ ": " ++ e]
        | .ok n =>
          if n > p.MaxChildren then ["directory children count exceeded for " ++ fullPath]
          else []
      else [])

/-- The entry loop of `Layout.Assess`. -/
def assessLoop (fs : AssessFS) : List Path → List String → List String
  | [], acc => acc
  | p :: rest, acc => assessLoop fs rest (acc ++ assessEntry fs p)

/-- Method `Layout.Assess` from the pathspec package: the full message list, and a
companion error that is non-nil exactly when the list is non-empty. -/
def Layout.assess (fs : AssessFS) (l : Layout) : List String × Option String :=
  let msgs := assessLoop fs l.GetAllPaths []
  (msgs, if msgs.length > 0 then some ("assessment errors: " ++ toString msgs.length) else none)

end pathspec

namespace jsonstore

/-- Association-list reading of a Go `map[string]T` index expression. -/
def mapGet {T : Type} : List (String × T) → String → Option T
  | [], _ => none
  | (k, v) :: rest, id => if k = id then some v else mapGet rest id

/-- Association-list form of a Go `map[string]T` assignment: replace the
entry when the key is present, append otherwise. -/
def mapSet {T : Type} : List (String × T) → String → T → List (String × T)
  | [], id, v => [(id, v)]
  | (k, w) :: rest, id, v =>
    if k = id then (id, v) :: rest else (k, w) :: mapSet rest id v

/-- Association-list form of Go's `delete(m, id)`. -/
def mapDel {T : Type} : List (String × T) → String → List (String × T)
  | [], _ => []
  | (k, w) :: rest, id =>
    if k = id then mapDel rest id else (k, w) :: mapDel rest id

/-- Constant `Compact MarshalingMethod = 0` (jsonstore v2). -/
def Compact : Nat := 0

/-- Constant `Indent MarshalingMethod = 1` (jsonstore v2). -/
def Indent : Nat := 1

/-- Constant `Hybrid MarshalingMethod = 2` (jsonstore v2). -/
def Hybrid : Nat := 2

/-- The v2 `JsonDB[T]` struct (`prefix` is rendered `prefixStr`). -/
structure JsonDB (T : Type) where
  data : List (String × T)
  path : String
  autoSave : Bool
  marshalingMethod : Nat
  prefixStr : String
  indent : String

/-- The v2 `options` struct; field defaults are the Go zero values of the
`options{}` literal built inside `New` and `Load`. -/
structure Options where
  autoSave : Bool := false
  marshalingMethod : Nat := 0
  prefixStr : String := ""
  indent : String := ""

/-- The v2 `DB_Option` functional options, represented by their effect. -/
inductive DB_Option where
  | withAutoSave (b : Bool)
  | withCompactMarshaling
  | withIndentMarshaling (pre ind : String)
deriving DecidableEq

/-- The effect of one v2 option function on the option set. -/
def applyOption (o : Options) : DB_Option → Options
  | .withAutoSave b => { o with autoSave := b }
  | .withCompactMarshaling => { o with marshalingMethod := Compact }
  | .withIndentMarshaling pre ind =>
    { o with marshalingMethod := Indent, prefixStr := pre, indent := ind }

/-- The option-application loop of v2 `New`/`Load` over the zero-valued
`options{}` literal. -/
def foldOptions (opts : List DB_Option) : Options :=
  opts.foldl applyOption {}

/-- v2 `New`: builds the struct literal (Hybrid method, two-space indent),
then unconditionally overwrites the four option-controlled fields from the
folded option set, then fills `data` from the file when one exists
(`fileData` is the externally decoded content; `none` = no file). -/
def New (T : Type) (path : String) (opts : List DB_Option)
    (fileData : Option (List (String × T))) : JsonDB T :=
  let db : JsonDB T :=
    { data := [], path := path, autoSave := false,
      marshalingMethod := Hybrid, prefixStr := "", indent := "  " }
  let optionSet := foldOptions opts
  let db : JsonDB T :=
    { db with autoSave := optionSet.autoSave,
              marshalingMethod := optionSet.marshalingMethod,
              indent := optionSet.indent,
              prefixStr := optionSet.prefixStr }
  { db with data := fileData.getD [] }

/-- v2 `Load`: same field construction as `New`, but the file is required
(`fileData` is its externally decoded content). -/
def Load (T : Type) (path : String) (opts : List DB_Option)
    (fileData : List (String × T)) : JsonDB T :=
  let db : JsonDB T :=
    { data := [], path := path, autoSave := false,
      marshalingMethod := Hybrid, prefixStr := "", indent := "  " }
  let optionSet := foldOptions opts
  let db : JsonDB T :=
    { db with autoSave := optionSet.autoSave,
              marshalingMethod := optionSet.marshalingMethod,
              indent := optionSet.indent,
              prefixStr := optionSet.prefixStr }
  { db with data := fileData }

/-- Go `sort.Strings` on the collected key slice. -/
def sortStrings (l : List String) : List String :=
  List.insertionSort (· ≤ ·) l

/-- The per-key lines of the v2 Hybrid `Marshal` branch: two-space indent,
JSON-encoded key, `: `, encoded value, a comma on all but the last pair,
one pair per line. -/
def hybridLines (encKey : String → String) (valStr : String → String) :
    List String → List String
  | [] => []
  | [k] => ["  " ++ encKey k ++ ": " ++ valStr k ++ "\n"]
  | k :: rest => ("  " ++ encKey k ++ ": " ++ valStr k ++ ",\n") :: hybridLines encKey valStr rest

/-- The `db.data[key]` read inside the Hybrid loop, rendered through the
external `json.Marshal` of a value. -/
def valRender {T : Type} (encVal : T → String) (data : List (String × T))
    (k : String) : String :=
  match mapGet data k with
  | some v => encVal v
  | none => ""

/-- The `Hybrid` case of v2 `JsonDB.Marshal`: sort the keys, then emit one
`"key": value` line per pair between `{` and `}`.  `encKey`/`encVal` are
the external `json.Marshal` of a string key and of a value. -/
def marshalHybrid {T : Type} (encKey : String → String) (encVal : T → String)
    (data : List (String × T)) : String :=
  let keys := sortStrings (data.map Prod.fst)
  "\x7b\n" ++ String.join (hybridLines encKey (valRender encVal data) keys) ++ "\x7d"

/-- v2 `JsonDB.Insert` with the persistence outcome of `internalSave` as
the `saveFails` oracle: reject empty or duplicate ids, mutate, and on a
failed auto-save restore the cloned pre-mutation map. -/
def JsonDB.Insert {T : Type} (saveFails : Bool) (db : JsonDB T) (id : String) (v : T) :
    Except String Unit × JsonDB T :=
  if id = "" then (.error "empty entry id", db)
  else
    match mapGet db.data id with
    | some _ => (.error "record already exist", db)
    | none =>
      let oldData := db.data
      let db1 : JsonDB T := { db with data := mapSet db.data id v }
      if db1.autoSave = true then
        if saveFails = true then (.error "failed to save db", { db1 with data := oldData })
        else (.ok (), db1)
      else (.ok (), db1)

/-- v2 `JsonDB.Update`, same persist/rollback discipline as `Insert`. -/
def JsonDB.Update {T : Type} (saveFails : Bool) (db : JsonDB T) (id : String) (v : T) :
    Except String Unit × JsonDB T :=
  if id = "" then (.error "empty entry id", db)
  else
    match mapGet db.data id with
    | none => (.error "record not found", db)
    | some _ =>
      let oldData := db.data
      let db1 : JsonDB T := { db with data := mapSet db.data id v }
      if db1.autoSave = true then
        if saveFails = true then (.error "failed to save db", { db1 with data := oldData })
        else (.ok (), db1)
      else (.ok (), db1)

/-- v2 `JsonDB.Delete`, same persist/rollback discipline (no empty-id
check in the source). -/
def JsonDB.Delete {T : Type} (saveFails : Bool) (db : JsonDB T) (id : String) :
    Except String Unit × JsonDB T :=
  match mapGet db.data id with
  | none => (.error "record not found", db)
  | some _ =>
    let oldData := db.data
    let db1 : JsonDB T := { db with data := mapDel db.data id }
    if db1.autoSave = true then
      if saveFails = true then (.error "failed to save db", { db1 with data := oldData })
      else (.ok (), db1)
    else (.ok (), db1)

/-- v2 `JsonDB.Get` (`none` plays `ErrRecordNotFound`). -/
def JsonDB.Get {T : Type} (db : JsonDB T) (id : String) : Option T :=
  mapGet db.data id

/-- v2 `JsonDB.Count` (`len` of the map). -/
def JsonDB.Count {T : Type} (db : JsonDB T) : Nat :=
  db.data.length

/-- Fault injection for the v2 `writeToFile` helper: which of MkdirAll,
CreateTemp, Write, Sync, Close and Rename succeed, and the partial content
a failed Write leaves in the just-created temp file. -/
structure WriteToFileFaults where
  mkdirOk : Bool
  createTempOk : Bool
  writeOk : Bool
  writeLeftover : String
  syncOk : Bool
  closeOk : Bool
  renameOk : Bool

/-- v2 `writeToFile`: MkdirAll on the parent, CreateTemp (fresh name
`tmpName`, `defer os.Remove(tmpName)`), Write, Sync, Close, Rename.  The
deferred remove runs on every exit path, modelled by the final `fsErase`
of `tmpName` in each branch after the temp file exists. -/
def writeToFile (flt : WriteToFileFaults) (tmpName : String)
    (fs : fsmodel.FileSys) (data path : String) : Except String Unit × fsmodel.FileSys :=
  if ¬ flt.mkdirOk = true then (.error "mkdir failed", fs)
  else if ¬ flt.createTempOk = true then (.error "createtemp failed", fs)
  else
    let fs1 := fsmodel.fsSet fs tmpName ""
    if ¬ flt.writeOk = true then
      (.error "write failed", fsmodel.fsErase (fsmodel.fsSet fs1 tmpName flt.writeLeftover) tmpName)
    else
      let fs2 := fsmodel.fsSet fs1 tmpName data
      if ¬ flt.syncOk = true then (.error "sync failed", fsmodel.fsErase fs2 tmpName)
      else if ¬ flt.closeOk = true then (.error "close failed", fsmodel.fsErase fs2 tmpName)
      else if ¬ flt.renameOk = true then (.error "rename failed", fsmodel.fsErase fs2 tmpName)
      else (.ok (), fsmodel.fsErase (fsmodel.fsSet (fsmodel.fsErase fs2 tmpName) path data) tmpName)

end jsonstore

namespace jsonstorev1

/-- The v1 `JsonDB[T]` struct (no marshaling options). -/
structure JsonDB (T : Type) where
  data : List (String × T)
  path : String
  autoSave : Bool

/-- v1 `JsonDB.Insert`: mutate, then `return db.autoSaveCheck()` — the save
error is returned but the mutation is kept (no rollback in the source). -/
def JsonDB.Insert {T : Type} (saveFails : Bool) (db : JsonDB T) (id : String) (v : T) :
    Except String Unit × JsonDB T :=
  if id = "" then (.error "empty entry id", db)
  else
    match jsonstore.mapGet db.data id with
    | some _ => (.error "record already exist", db)
    | none =>
      let db1 : JsonDB T := { db with data := jsonstore.mapSet db.data id v }
      (if db1.autoSave = true ∧ saveFails = true then .error "failed to write temp file"
       else .ok (), db1)

/-- v1 `JsonDB.Update`: same keep-the-mutation behaviour on save failure. -/
def JsonDB.Update {T : Type} (saveFails : Bool) (db : JsonDB T) (id : String) (v : T) :
    Except String Unit × JsonDB T :=
  if id = "" then (.error "empty entry id", db)
  else
    match jsonstore.mapGet db.data id with
    | none => (.error "record not found", db)
    | some _ =>
      let db1 : JsonDB T := { db with data := jsonstore.mapSet db.data id v }
      (if db1.autoSave = true ∧ saveFails = true then .error "failed to write temp file"
       else .ok (), db1)

/-- v1 `JsonDB.Delete`: same keep-the-mutation behaviour on save failure. -/
def JsonDB.Delete {T : Type} (saveFails : Bool) (db : JsonDB T) (id : String) :
    Except String Unit × JsonDB T :=
  match jsonstore.mapGet db.data id with
  | none => (.error "record not found", db)
  | some _ =>
    let db1 : JsonDB T := { db with data := jsonstore.mapDel db.data id }
    (if db1.autoSave = true ∧ saveFails = true then .error "failed to write temp file"
     else .ok (), db1)

/-- v1 `JsonDB.Get`. -/
def JsonDB.Get {T : Type} (db : JsonDB T) (id : String) : Option T :=
  jsonstore.mapGet db.data id

/-- v1 `JsonDB.Count`. -/
def JsonDB.Count {T : Type} (db : JsonDB T) : Nat :=
  db.data.length

end jsonstorev1

namespace configmanager

/-- Outcome of the `os.WriteFile(tempPath, data, 0644)` call inside
`atomicSave`: success, a failure that leaves a created/partial temp file
behind, or a failure before any file was created. -/
inductive WriteOutcome where
  | success
  | failPartial (leftover : String)
  | failNoFile
deriving DecidableEq

/-- Fault injection for `atomicSave`: the WriteFile outcome and whether
`os.Rename` succeeds. -/
structure SaveFaults where
  write : WriteOutcome
  renameOk : Bool

/-- The modelled `os.WriteFile` step. -/
def writeFileModel (w : WriteOutcome) (fs : fsmodel.FileSys) (p data : String) :
    Except String Unit × fsmodel.FileSys :=
  match w with
  | .success => (.ok (), fsmodel.fsSet fs p data)
  | .failPartial leftover => (.error "write failed", fsmodel.fsSet fs p leftover)
  | .failNoFile => (.error "open failed", fs)

/-- Function `atomicSave` as in configmanager's first version (config.go lines
289–298, identical in the TOML-only manager): WriteFile to `path + ".tmp"`
then Rename; no failure path removes the temp file. -/
def atomicSaveA (flt : SaveFaults) (fs : fsmodel.FileSys) (data path : String) :
    Except String Unit × fsmodel.FileSys :=
  let tempPath := path ++ ".tmp"
  match writeFileModel flt.write fs tempPath data with
  | (.error e, fs1) => (.error ("failed to save to tmp file: " ++ e), fs1)
  | (.ok _, fs1) =>
    if flt.renameOk = true then
      (.ok (), fsmodel.fsSet (fsmodel.fsErase fs1 tempPath) path data)
    else
      (.error "failed to seal saved data to file", fs1)

/-- Function `atomicSave` as in configmanager's second version (config.go lines
562–572): identical, except a failed Rename removes the temp file. -/
def atomicSaveB (flt : SaveFaults) (fs : fsmodel.FileSys) (data path : String) :
    Except String Unit × fsmodel.FileSys :=
  let tempPath := path ++ ".tmp"
  match writeFileModel flt.write fs tempPath data with
  | (.error e, fs1) => (.error ("failed to save to tmp file: " ++ e), fs1)
  | (.ok _, fs1) =>
    if flt.renameOk = true then
      (.ok (), fsmodel.fsSet (fsmodel.fsErase fs1 tempPath) path data)
    else
      (.error "failed to seal saved data to file", fsmodel.fsErase fs1 tempPath)

/-- Go `strings.TrimSuffix`: removes a trailing occurrence of `suffix`
(character-list implementation, so that it evaluates by reduction). -/
def trimSuffix (s suffix : String) : String :=
  if suffix.toList.isSuffixOf s.toList then
    String.mk (s.toList.take (s.toList.length - suffix.toList.length))
  else s

/-- Go `filepath.Ext`: the suffix of the final slash-separated element of
`path` beginning at its final dot, empty when there is no dot. -/
def filepathExt (path : String) : String :=
  let revElem := path.toList.reverse.takeWhile (fun c => ¬ c = '/')
  let ys := revElem.takeWhile (fun c => ¬ c = '.')
  if ys.length = revElem.length then "" else String.mk ('.' :: ys.reverse)

/-- External collaborators of the first-version `Manager.Load`:
`validatePath` (readability probe), `os.ReadFile`, the format's
unmarshaller, and the optional `Validator` hook of the held type. -/
structure LoadEnv (T : Type) where
  readable : String → Bool
  content : String → Option String
  decode : String → Option T
  validHook : Option (T → Bool)

/-- The first-version `Manager.Load` (config.go lines 121–158): pick the
first readable candidate path, then guard
`strings.TrimSuffix(filepath.Ext(selectedPath), ".") != string(m.format)`,
then read, unmarshal and optionally validate. -/
def loadA {T : Type} (env : LoadEnv T) (mpath format : String)
    (alternativePaths : List String) : Except String T :=
  match (mpath :: alternativePaths).find? env.readable with
  | none => .error "could not find valid config paths"
  | some selectedPath =>
    if ¬ trimSuffix (filepathExt selectedPath) "." = format then
      .error "file is extention does not match serialization format"
    else
      match env.content selectedPath with
      | none => .error "failed to read selected file"
      | some raw =>
        match env.decode raw with
        | none => .error "unmarshal failed"
        | some cfg =>
          match env.validHook with
          | some h => if h cfg = true then .ok cfg else .error "config validation failed"
          | none => .ok cfg

end configmanager

namespace fixtures

/-- A `GenFS` on which every filesystem operation succeeds. -/
def fsOkGen : pathspec.GenFS :=
  { render := fun p => "/app/" ++ p.Name
    mkdirAll := fun _ _ => none
    statMissing := fun _ => true
    createFile := fun _ _ => none
    parentDir := fun _ => "/app" }

/-- A directory entry with an empty `Name`, which fails `validate`. -/
def invalidNamePath : pathspec.Path :=
  { AppName := "app", Name := "", PathType := 1, DefaultPerm := 493 }

/-- A layout (built directly, as the exported struct allows) holding the
invalid entry. -/
def badLayout : pathspec.Layout :=
  { AppName := "app", ConfigPaths := [invalidNamePath] }

/-- A valid symlink entry: `Generate` always records an error for it. -/
def symlinkPath : pathspec.Path :=
  { AppName := "app", Name := "link", PathType := 2, DefaultPerm := 420 }

/-- A layout holding only the symlink entry. -/
def symLayout : pathspec.Layout :=
  { AppName := "app", ConfigPaths := [symlinkPath] }

/-- An `AssessFS` where nothing exists on disk. -/
def missFS : pathspec.AssessFS :=
  { render := fun p => "/a/" ++ p.Name
    stat := fun _ => .notExist
    readDir := fun _ => .ok 0 }

/-- A non-mandatory file entry. -/
def optPath : pathspec.Path :=
  { AppName := "app", Name := "opt", PathType := 0, DefaultPerm := 420 }

/-- A layout holding only the optional entry. -/
def optLayout : pathspec.Layout :=
  { AppName := "app", ConfigPaths := [optPath] }

/-- A manifest layout whose single entry omits `app_name`. -/
def importFixture : pathspec.Layout :=
  { AppName := "app", ConfigPaths := [{ Name := "cfg", PathType := 0, DefaultPerm := 420 }] }

/-- A field-valid entry whose `BaseDir` (7) is none of the five kinds. -/
def strayPath : pathspec.Path :=
  { AppName := "", Name := "x", BaseDir := 7, PathType := 1, DefaultPerm := 493 }

/-- First insertion order of the two-record store content. -/
def hybridListBA : List (String × Nat) := [("b", 1), ("a", 2)]

/-- Second insertion order of the same two-record content. -/
def hybridListAB : List (String × Nat) := [("a", 2), ("b", 1)]

/-- A stand-in for `json.Marshal` of a string key. -/
def encKeyQ (s : String) : String := "\"" ++ s ++ "\""

/-- A stand-in for `json.Marshal` of a `Nat` value. -/
def encValN (n : Nat) : String := toString n

/-- An empty v1 store with auto-save enabled. -/
def v1Empty : jsonstorev1.JsonDB Nat :=
  { data := [], path := "/db.json", autoSave := true }

/-- A one-record v1 store with auto-save enabled. -/
def v1One : jsonstorev1.JsonDB Nat :=
  { data := [("a", 7)], path := "/db.json", autoSave := true }

/-- A one-record v2 store with auto-save enabled. -/
def v2One : jsonstore.JsonDB Nat :=
  { data := [("a", 7)], path := "/db.json", autoSave := true,
    marshalingMethod := 2, prefixStr := "", indent := "  " }

/-- A filesystem holding one config file with old content. -/
def fsOld : fsmodel.FileSys :=
  fun p => if p = "/cfg/config.toml" then some "old" else none

/-- Faults making the temp-file write fail with partial content left. -/
def writeFailFaults : configmanager.SaveFaults :=
  { write := .failPartial "par", renameOk := true }

/-- Faults making only the rename fail. -/
def renameFailFaults : configmanager.SaveFaults :=
  { write := .success, renameOk := false }

/-- Faults making only the sync step of `writeToFile` fail. -/
def syncFailFaults : jsonstore.WriteToFileFaults :=
  { mkdirOk := true, createTempOk := true, writeOk := true,
    writeLeftover := "", syncOk := false, closeOk := true, renameOk := true }

/-- The saved-then-loaded environment for the C3 failing input: the
config file written by `Save` is present and decodes to the held value. -/
def loadEnvC3 : configmanager.LoadEnv Nat :=
  { readable := fun p => p == "/home/u/.config/app/config.json"
    content := fun p => if p = "/home/u/.config/app/config.json" then some "42" else none
    decode := fun s => if s = "42" then some 42 else none
    validHook := none }

/-- The two-record hybrid-mode store filled in b-then-a order. -/
def v2HybridBA : jsonstore.JsonDB Nat :=
  { data := hybridListBA, path := "/h.json", autoSave := false,
    marshalingMethod := 2, prefixStr := "", indent := "  " }

/-- The two-record hybrid-mode store filled in a-then-b order. -/
def v2HybridAB : jsonstore.JsonDB Nat :=
  { data := hybridListAB, path := "/h.json", autoSave := false,
    marshalingMethod := 2, prefixStr := "", indent := "  " }

end fixtures

namespace pathspec

theorem generateLoop_eq (fs : GenFS) :
    ∀ (paths : List Path) (errs : List String),
      (∀ p ∈ paths, validate p = .ok ()) →
      generateLoop fs paths errs = .completed (errs ++ (paths.map (generateEntry fs)).flatten) := by
  intro paths
  induction paths with
  | nil => intro errs _; simp [generateLoop]
  | cons p rest ih =>
    intro errs h
    have hp : validate p = .ok () := h p (by simp)
    rw [generateLoop, hp, ih _ (fun q hq => h q (by simp [hq]))]
    simp

theorem assessLoop_eq (fs : AssessFS) :
    ∀ (paths : List Path) (acc : List String),
      assessLoop fs paths acc = acc ++ (paths.map (assessEntry fs)).flatten := by
  intro paths
  induction paths with
  | nil => intro acc; simp [assessLoop]
  | cons p rest ih => intro acc; rw [assessLoop, ih]; simp

theorem validate_appName_ne {p : Path} (h : validate p = .ok ()) : p.AppName ≠ "" := by
  intro he
  simp [validate, he] at h

theorem fillAppName_BaseDir (app : String) (p : Path) :
    (fillAppName app p).BaseDir = p.BaseDir := by
  unfold fillAppName
  split_ifs <;> rfl

theorem mem_bucket {acc : Layout} {p q : Path} (hq : q ∈ (bucket acc p).GetAllPaths) :
    q ∈ acc.GetAllPaths ∨ (q = p ∧ p.BaseDir < 5) := by
  unfold bucket at hq
  split_ifs at hq with h1 h2 h3 h4 h5
  case _ =>
    have hlt : p.BaseDir < 5 := by unfold Config at h1; omega
    simp only [Layout.GetAllPaths, List.mem_append, List.mem_singleton] at hq ⊢
    tauto
  case _ =>
    have hlt : p.BaseDir < 5 := by unfold Data at h2; omega
    simp only [Layout.GetAllPaths, List.mem_append, List.mem_singleton] at hq ⊢
    tauto
  case _ =>
    have hlt : p.BaseDir < 5 := by unfold Cache at h3; omega
    simp only [Layout.GetAllPaths, List.mem_append, List.mem_singleton] at hq ⊢
    tauto
  case _ =>
    have hlt : p.BaseDir < 5 := by unfold Runtime at h4; omega
    simp only [Layout.GetAllPaths, List.mem_append, List.mem_singleton] at hq ⊢
    tauto
  case _ =>
    have hlt : p.BaseDir < 5 := by unfold Temp at h5; omega
    simp only [Layout.GetAllPaths, List.mem_append, List.mem_singleton] at hq ⊢
    tauto
  case _ => exact .inl hq

theorem NewLayoutLoop_inv (app : String) :
    ∀ (paths : List Path) (acc l : Layout),
      NewLayoutLoop app paths acc = .ok l →
      ∀ q ∈ l.GetAllPaths, q ∈ acc.GetAllPaths ∨ (validate q = .ok () ∧ q.BaseDir < 5) := by
  intro paths
  induction paths with
  | nil =>
    intro acc l h q hq
    simp [NewLayoutLoop] at h
    subst h
    exact .inl hq
  | cons p rest ih =>
    intro acc l h q hq
    rw [NewLayoutLoop] at h
    cases hv : validate (fillAppName app p) with
    | error e => rw [hv] at h; simp at h
    | ok u =>
      rw [hv] at h
      rcases ih _ _ h q hq with hmem | hprop
      · rcases mem_bucket hmem with h' | ⟨heq, hlt⟩
        · exact .inl h'
        · subst heq
          cases u
          exact .inr ⟨hv, hlt⟩
      · exact .inr hprop

theorem importCheck_ok (app : String) :
    ∀ (paths : List Path), importCheck app paths = .ok () →
      ∀ p ∈ paths, validate (fillAppName app p) = .ok () := by
  intro paths
  induction paths with
  | nil => intro _ p hp; simp at hp
  | cons p rest ih =>
    intro h q hq
    rw [importCheck] at h
    cases hv : validate (fillAppName app p) with
    | error e => rw [hv] at h; simp at h
    | ok u =>
      rw [hv] at h
      rcases List.mem_cons.mp hq with heq | hmem
      · subst heq; cases u; exact hv
      · exact ih h q hmem

end pathspec

set_option maxHeartbeats 2000000 in
/-- Claim C4: for every `Path` entry, `validate` succeeds if and only if the
entry satisfies all the §3 invariants: non-empty Name and AppName, non-zero
DefaultPerm, MaxChildren and HasSubdirs unset for file type, MaxSize and
Format unset for directory type, CleanupAge not greater than RetentionDays
when both are set, IsVersioned only with category config, and a non-empty
Subcategory drawn from the allowed-subcategory table for its category. -/
theorem c4_validate_iff_invariants (p : pathspec.Path) :
    pathspec.validate p = .ok () ↔ pathspec.pathInvariants p := by
  unfold pathspec.validate pathspec.pathInvariants
  split_ifs with h1 h2 h3 h4 h5 h6 h7 h8 h9 h10
  case _ => exact iff_of_false (by simp) fun hP => hP.2.1 h1
  case _ => exact iff_of_false (by simp) fun hP => hP.1 h2
  case _ =>
    exact iff_of_false (by simp) fun hP => by
      have := (hP.2.2.2.1 h3.1).1; omega
  case _ =>
    exact iff_of_false (by simp) fun hP => by
      have := (hP.2.2.2.1 h4.1).2; simp_all
  case _ =>
    exact iff_of_false (by simp) fun hP => by
      have := (hP.2.2.2.2.1 h5.1).1; omega
  case _ =>
    exact iff_of_false (by simp) fun hP => (hP.2.2.2.2.1 h6.1).2 |> h6.2
  case _ =>
    exact iff_of_false (by simp) fun hP => by
      have := hP.2.2.2.2.2.1 h7.1 h7.2.1; omega
  case _ =>
    exact iff_of_false (by simp) fun hP => h8.2 (hP.2.2.2.2.2.2.1 h8.1)
  case _ =>
    exact iff_of_false (by simp) fun hP => h9.2 (hP.2.2.2.2.2.2.2 h9.1)
  case _ => exact iff_of_false (by simp) fun hP => hP.2.2.1 h10
  case _ =>
    refine iff_of_true rfl ⟨h2, h1, h10, ?_, ?_, ?_, ?_, ?_⟩
    · intro hf
      refine ⟨?_, ?_⟩
      · by_contra hc
        exact h3 ⟨hf, Nat.pos_of_ne_zero hc⟩
      · by_contra hc
        exact h4 ⟨hf, by simpa using hc⟩
    · intro hd
      refine ⟨?_, ?_⟩
      · by_contra hc
        exact h5 ⟨hd, Nat.pos_of_ne_zero hc⟩
      · by_contra hc
        exact h6 ⟨hd, hc⟩
    · intro hr hc
      by_contra hgt
      exact h7 ⟨hr, hc, by omega⟩
    · intro hv
      by_contra hc
      exact h8 ⟨hv, hc⟩
    · intro hs
      by_contra hc
      exact h9 ⟨hs, by simpa using hc⟩

/-- Claim C5 (amended): for every Layout ALL OF WHOSE ENTRIES PASS
VALIDATION, Generate processes every entry to the end, collecting all
per-entry errors (failed directory creation, failed parent-directory
creation, failed file creation, unsupported symlink entries) and reporting
them jointly, and returns success iff no per-entry error occurred. -/
theorem c5_generate_collects_all_errors (fs : pathspec.GenFS) (l : pathspec.Layout)
    (h : ∀ p ∈ l.GetAllPaths, pathspec.validate p = .ok ()) :
    pathspec.Layout.generate fs l =
      .completed ((l.GetAllPaths.map (pathspec.generateEntry fs)).flatten) ∧
    (pathspec.genOk (pathspec.Layout.generate fs l) = true ↔
      (l.GetAllPaths.map (pathspec.generateEntry fs)).flatten = []) := by
  have he := pathspec.generateLoop_eq fs l.GetAllPaths [] h
  rw [List.nil_append] at he
  refine ⟨he, ?_⟩
  rw [pathspec.Layout.generate, he]
  cases (l.GetAllPaths.map (pathspec.generateEntry fs)).flatten with
  | nil => simp [pathspec.genOk]
  | cons a as => simp [pathspec.genOk]

/-- Witness for C5: a layout with one valid symlink entry is processed to
the end; the symlink error is collected and makes Generate fail. -/
theorem c5_generate_witness :
    pathspec.Layout.generate fixtures.fsOkGen fixtures.symLayout =
      .completed ["symlink /app/link: symlink creation not supported"] ∧
    pathspec.genOk (pathspec.Layout.generate fixtures.fsOkGen fixtures.symLayout) = false := by
  have h := c5_generate_collects_all_errors fixtures.fsOkGen fixtures.symLayout
    (by intro p hp
        simp [fixtures.symLayout, pathspec.Layout.GetAllPaths] at hp
        subst hp
        rfl)
  refine ⟨h.1.trans (by rfl), ?_⟩
  rw [h.1]
  rfl

/-- Counterexample for C5 as stated: a directly constructed Layout holding
one entry with an empty Name (which fails validation) makes Generate
return an error even though no per-entry generation error (of the four
collected kinds) occurred, so "success iff no per-entry error" is false
for this Layout. -/
theorem c5_generate_claim_false :
    pathspec.genOk (pathspec.Layout.generate fixtures.fsOkGen fixtures.badLayout) = false ∧
    (fixtures.badLayout.GetAllPaths.map (pathspec.generateEntry fixtures.fsOkGen)).flatten = [] := by
  constructor
  · rfl
  · rfl

/-- Claim C6: Assess returns the full list of per-entry discrepancy
messages over all entries, a missing non-mandatory entry produces no
message, and the companion error is non-nil iff the message list is
non-empty. -/
theorem c6_assess_full_list (fs : pathspec.AssessFS) (l : pathspec.Layout) :
    (pathspec.Layout.assess fs l).1 =
      (l.GetAllPaths.map (pathspec.assessEntry fs)).flatten ∧
    ((pathspec.Layout.assess fs l).2 ≠ none ↔ (pathspec.Layout.assess fs l).1 ≠ []) ∧
    (∀ p : pathspec.Path, fs.stat (fs.render p) = .notExist → p.IsMandatory = false →
      pathspec.assessEntry fs p = []) := by
  refine ⟨?_, ?_, ?_⟩
  · rw [pathspec.Layout.assess]
    simpa using pathspec.assessLoop_eq fs l.GetAllPaths []
  · rw [pathspec.Layout.assess]
    cases hm : pathspec.assessLoop fs l.GetAllPaths [] with
    | nil => simp
    | cons a as => simp
  · intro p h1 h2
    simp [pathspec.assessEntry, h1, h2]

/-- Witness for C6 at a concrete input: a missing non-mandatory entry
produces no message. -/
theorem c6_assess_witness :
    pathspec.assessEntry fixtures.missFS fixtures.optPath = [] :=
  (c6_assess_full_list fixtures.missFS fixtures.optLayout).2.2 fixtures.optPath rfl rfl

/-- Claim C8: Import validates each manifest entry on a loop-local copy
with the layout-level AppName filled in, but returns the decoded layout
unchanged (entries that omitted app_name keep an empty AppName), whereas
NewLayout buckets the filled entries, so every entry of its result has a
non-empty AppName. -/
theorem c8_import_fill_not_persisted :
    (∀ (l l' : pathspec.Layout), pathspec.importLayout l = .ok l' →
      l' = l ∧
      ∀ p ∈ l.GetAllPaths, pathspec.validate (pathspec.fillAppName l.AppName p) = .ok ()) ∧
    (∀ (app : String) (paths : List pathspec.Path) (l : pathspec.Layout),
      pathspec.NewLayout app paths = .ok l → ∀ q ∈ l.GetAllPaths, q.AppName ≠ "") := by
  constructor
  · intro l l' h
    rw [pathspec.importLayout] at h
    cases hc : pathspec.importCheck l.AppName l.GetAllPaths with
    | error e => rw [hc] at h; simp at h
    | ok u =>
      cases u
      rw [hc] at h
      simp at h
      exact ⟨h.symm, pathspec.importCheck_ok _ _ hc⟩
  · intro app paths l h q hq
    rcases pathspec.NewLayoutLoop_inv app paths _ l h q hq with hmem | ⟨hv, _⟩
    · simp [pathspec.emptyLayout, pathspec.Layout.GetAllPaths] at hmem
    · exact pathspec.validate_appName_ne hv

/-- Witness for C8: a manifest layout whose single entry omits app_name is
returned by Import exactly as decoded (the entry still has an empty
AppName), while the loop-local validation of the filled entry succeeded. -/
theorem c8_import_witness :
    pathspec.importLayout fixtures.importFixture = .ok fixtures.importFixture ∧
    (∀ p ∈ fixtures.importFixture.GetAllPaths, p.AppName = "") ∧
    pathspec.validate (pathspec.fillAppName "app"
      ({ Name := "cfg", PathType := 0, DefaultPerm := 420 } : pathspec.Path)) = .ok () := by
  have h := (c8_import_fill_not_persisted.1 fixtures.importFixture fixtures.importFixture rfl).2
  refine ⟨rfl, ?_, ?_⟩
  · intro p hp
    simp [fixtures.importFixture, pathspec.Layout.GetAllPaths] at hp
    subst hp
    rfl
  · exact h _ (by simp [fixtures.importFixture, pathspec.Layout.GetAllPaths])

/-- Claim C10: a field-valid entry whose BaseDir is none of the five
recognized kinds is accepted by NewLayout but placed in no bucket: the
returned layout is the empty one, GetAllPaths omits the entry, and
Generate/Assess have nothing to touch; in general every entry of a
NewLayout result has one of the five BaseDir kinds. -/
theorem c10_unknown_basedir_dropped (app : String) (p : pathspec.Path)
    (fs : pathspec.GenFS) (afs : pathspec.AssessFS)
    (hv : pathspec.validate (pathspec.fillAppName app p) = .ok ())
    (hb : p.BaseDir ≠ pathspec.Config ∧ p.BaseDir ≠ pathspec.Data ∧
          p.BaseDir ≠ pathspec.Cache ∧ p.BaseDir ≠ pathspec.Runtime ∧
          p.BaseDir ≠ pathspec.Temp) :
    pathspec.NewLayout app [p] = .ok (pathspec.emptyLayout app) ∧
    (pathspec.emptyLayout app).GetAllPaths = [] ∧
    pathspec.Layout.generate fs (pathspec.emptyLayout app) = .completed [] ∧
    pathspec.Layout.assess afs (pathspec.emptyLayout app) = ([], none) ∧
    (∀ (app2 : String) (paths : List pathspec.Path) (l : pathspec.Layout),
      pathspec.NewLayout app2 paths = .ok l → ∀ q ∈ l.GetAllPaths, q.BaseDir < 5) := by
  have hfb := pathspec.fillAppName_BaseDir app p
  refine ⟨?_, rfl, rfl, rfl, ?_⟩
  · rw [pathspec.NewLayout, pathspec.NewLayoutLoop, hv, pathspec.NewLayoutLoop]
    have hbe : pathspec.bucket (pathspec.emptyLayout app) (pathspec.fillAppName app p) =
        pathspec.emptyLayout app := by
      unfold pathspec.bucket
      rw [hfb, if_neg hb.1, if_neg hb.2.1, if_neg hb.2.2.1, if_neg hb.2.2.2.1,
        if_neg hb.2.2.2.2]
    rw [hbe]
  · intro app2 paths l h q hq
    rcases pathspec.NewLayoutLoop_inv app2 paths _ l h q hq with hmem | ⟨_, hlt⟩
    · simp [pathspec.emptyLayout, pathspec.Layout.GetAllPaths] at hmem
    · exact hlt

/-- Witness for C10 at a concrete input: a valid entry with BaseDir 7 is
dropped from the layout NewLayout returns. -/
theorem c10_witness :
    pathspec.NewLayout "sApp" [fixtures.strayPath] = .ok (pathspec.emptyLayout "sApp") ∧
    (pathspec.emptyLayout "sApp").GetAllPaths = [] := by
  have h := c10_unknown_basedir_dropped "sApp" fixtures.strayPath fixtures.fsOkGen
    fixtures.missFS rfl (by refine ⟨?_, ?_, ?_, ?_, ?_⟩ <;> decide)
  exact ⟨h.1, h.2.1⟩

namespace jsonstore

theorem mapGet_isSome_iff {T : Type} :
    ∀ (l : List (String × T)) (k : String),
      (mapGet l k).isSome = true ↔ k ∈ l.map Prod.fst := by
  intro l k
  induction l with
  | nil => simp [mapGet]
  | cons kv rest ih =>
    obtain ⟨k', v⟩ := kv
    by_cases h : k' = k
    · subst h
      simp [mapGet]
    · rw [List.map_cons, List.mem_cons, mapGet]
      rw [if_neg h]
      rw [ih]
      constructor
      · exact fun hm => .inr hm
      · rintro (rfl | hm)
        · exact absurd rfl h
        · exact hm

theorem keys_perm_of_mapGet_eq {T : Type} {l1 l2 : List (String × T)}
    (h1 : (l1.map Prod.fst).Nodup) (h2 : (l2.map Prod.fst).Nodup)
    (hag : ∀ k, mapGet l1 k = mapGet l2 k) :
    (l1.map Prod.fst).Perm (l2.map Prod.fst) := by
  apply List.perm_of_nodup_nodup_toFinset_eq h1 h2
  ext a
  simp only [List.mem_toFinset]
  rw [← mapGet_isSome_iff, ← mapGet_isSome_iff, hag a]

theorem hybridLines_length (ek vs : String → String) :
    ∀ ks : List String, (hybridLines ek vs ks).length = ks.length := by
  intro ks
  induction ks with
  | nil => rfl
  | cons k rest ih =>
    cases rest with
    | nil => rfl
    | cons b bs =>
      have hstep : hybridLines ek vs (k :: b :: bs) =
          ("  " ++ ek k ++ ": " ++ vs k ++ ",\n") :: hybridLines ek vs (b :: bs) := rfl
      rw [hstep]
      simpa using ih

end jsonstore

/-- Claim C7: two hybrid-mode v2 stores holding equal key-to-value
mappings (whatever insertion order produced them) marshal to byte-identical
output; the emitted key order is sorted lexicographically and there is one
key-value line per pair. -/
theorem c7_hybrid_marshal_deterministic {T : Type}
    (encKey : String → String) (encVal : T → String)
    (db1 db2 : jsonstore.JsonDB T)
    (h1 : (db1.data.map Prod.fst).Nodup) (h2 : (db2.data.map Prod.fst).Nodup)
    (hag : ∀ k, jsonstore.mapGet db1.data k = jsonstore.mapGet db2.data k) :
    jsonstore.marshalHybrid encKey encVal db1.data =
      jsonstore.marshalHybrid encKey encVal db2.data ∧
    List.Sorted (· ≤ ·) (jsonstore.sortStrings (db1.data.map Prod.fst)) ∧
    (jsonstore.hybridLines encKey (jsonstore.valRender encVal db1.data)
      (jsonstore.sortStrings (db1.data.map Prod.fst))).length =
      (db1.data.map Prod.fst).length := by
  have hperm := jsonstore.keys_perm_of_mapGet_eq h1 h2 hag
  have hkeys : jsonstore.sortStrings (db1.data.map Prod.fst) =
      jsonstore.sortStrings (db2.data.map Prod.fst) := by
    refine @List.eq_of_perm_of_sorted String (· ≤ ·) _ _ _ ?_ ?_ ?_
    · exact (List.perm_insertionSort _ _).trans
        (hperm.trans (List.perm_insertionSort _ _).symm)
    · exact List.sorted_insertionSort _ _
    · exact List.sorted_insertionSort _ _
  have hval : jsonstore.valRender encVal db1.data = jsonstore.valRender encVal db2.data := by
    funext k
    unfold jsonstore.valRender
    rw [hag k]
  refine ⟨?_, List.sorted_insertionSort _ _, ?_⟩
  · unfold jsonstore.marshalHybrid
    rw [hkeys, hval]
  · rw [jsonstore.hybridLines_length]
    exact (List.perm_insertionSort _ _).length_eq

/-- Witness for C7: the two-record store content in its two insertion
orders marshals identically. -/
theorem c7_hybrid_witness :
    jsonstore.marshalHybrid fixtures.encKeyQ fixtures.encValN fixtures.v2HybridBA.data =
      jsonstore.marshalHybrid fixtures.encKeyQ fixtures.encValN fixtures.v2HybridAB.data := by
  have h := c7_hybrid_marshal_deterministic fixtures.encKeyQ fixtures.encValN
    fixtures.v2HybridBA fixtures.v2HybridAB
    (by decide) (by decide)
    (by intro k
        by_cases ha : k = "a"
        · subst ha; rfl
        · by_cases hb : k = "b"
          · subst hb; rfl
          · simp [fixtures.v2HybridBA, fixtures.v2HybridAB, fixtures.hybridListBA,
              fixtures.hybridListAB, jsonstore.mapGet, Ne.symm ha, Ne.symm hb])
  exact h.1

namespace jsonstore

theorem foldl_applyOption_marshaling_fields :
    ∀ (opts : List DB_Option) (o0 : Options),
      (∀ o ∈ opts, ∃ b, o = .withAutoSave b) →
      (opts.foldl applyOption o0).marshalingMethod = o0.marshalingMethod ∧
      (opts.foldl applyOption o0).prefixStr = o0.prefixStr ∧
      (opts.foldl applyOption o0).indent = o0.indent := by
  intro opts
  induction opts with
  | nil => intro o0 _; exact ⟨rfl, rfl, rfl⟩
  | cons o rest ih =>
    intro o0 h
    obtain ⟨b, rfl⟩ := h o (by simp)
    rw [List.foldl_cons]
    exact ih _ (fun o' ho' => h o' (by simp [ho']))

end jsonstore

/-- Claim C9: a v2 JsonDB constructed by New or Load with no marshaling
option supplied (any options present only set auto-save) ends up with the
Compact method and empty prefix and indent: the Hybrid method and
two-space indent of the struct literal are overwritten by the zero-valued
option set. -/
theorem c9_default_marshaling_compact {T : Type} (path : String)
    (fileData : Option (List (String × T))) (fileData2 : List (String × T))
    (opts : List jsonstore.DB_Option)
    (h : ∀ o ∈ opts, ∃ b, o = jsonstore.DB_Option.withAutoSave b) :
    (jsonstore.New T path opts fileData).marshalingMethod = jsonstore.Compact ∧
    (jsonstore.New T path opts fileData).prefixStr = "" ∧
    (jsonstore.New T path opts fileData).indent = "" ∧
    (jsonstore.Load T path opts fileData2).marshalingMethod = jsonstore.Compact ∧
    (jsonstore.Load T path opts fileData2).prefixStr = "" ∧
    (jsonstore.Load T path opts fileData2).indent = "" := by
  have h0 := jsonstore.foldl_applyOption_marshaling_fields opts {} h
  exact ⟨h0.1, h0.2.1, h0.2.2, h0.1, h0.2.1, h0.2.2⟩

/-- Witness for C9: New with only an auto-save option yields the Compact
method and an empty indent, not the Hybrid two-space configuration from
the struct literal. -/
theorem c9_default_marshaling_witness :
    (jsonstore.New Nat "/db.json" [jsonstore.DB_Option.withAutoSave true] none).marshalingMethod =
      jsonstore.Compact ∧
    (jsonstore.New Nat "/db.json" [jsonstore.DB_Option.withAutoSave true] none).indent = "" := by
  have h := c9_default_marshaling_compact "/db.json" (none : Option (List (String × Nat))) []
    [jsonstore.DB_Option.withAutoSave true]
    (by intro o ho
        simp at ho
        exact ⟨true, ho⟩)
  exact ⟨h.1, h.2.2.1⟩

/-- Claim C2 (amended): the rollback discipline holds for the v2 JsonDB:
with auto-save enabled and a failing save, Insert, Update and Delete
return an error and restore the pre-mutation snapshot, so Get(id) returns
the pre-mutation value (NotFound for a rolled-back insert, the old value
for a rolled-back delete) and Count() is unchanged.  (The v1 JsonDB keeps
the mutation, see the counterexample.) -/
theorem c2_v2_rollback {T : Type} (db : jsonstore.JsonDB T) (id : String) (v w : T)
    (hauto : db.autoSave = true) :
    (id ≠ "" → jsonstore.mapGet db.data id = none →
      jsonstore.JsonDB.Insert true db id v = (.error "failed to save db", db) ∧
      (jsonstore.JsonDB.Insert true db id v).2.Get id = none ∧
      (jsonstore.JsonDB.Insert true db id v).2.Count = db.Count) ∧
    (id ≠ "" → jsonstore.mapGet db.data id = some w →
      jsonstore.JsonDB.Update true db id v = (.error "failed to save db", db) ∧
      (jsonstore.JsonDB.Update true db id v).2.Get id = some w ∧
      (jsonstore.JsonDB.Update true db id v).2.Count = db.Count) ∧
    (jsonstore.mapGet db.data id = some w →
      jsonstore.JsonDB.Delete true db id = (.error "failed to save db", db) ∧
      (jsonstore.JsonDB.Delete true db id).2.Get id = some w ∧
      (jsonstore.JsonDB.Delete true db id).2.Count = db.Count) := by
  refine ⟨?_, ?_, ?_⟩
  · intro hne hnone
    have hres : jsonstore.JsonDB.Insert true db id v = (.error "failed to save db", db) := by
      unfold jsonstore.JsonDB.Insert
      rw [if_neg hne, hnone]
      simp [hauto]
      rw [← hauto]
    refine ⟨hres, ?_, ?_⟩
    · rw [hres]
      exact hnone
    · rw [hres]
  · intro hne hsome
    have hres : jsonstore.JsonDB.Update true db id v = (.error "failed to save db", db) := by
      unfold jsonstore.JsonDB.Update
      rw [if_neg hne, hsome]
      simp [hauto]
      rw [← hauto]
    refine ⟨hres, ?_, ?_⟩
    · rw [hres]
      exact hsome
    · rw [hres]
  · intro hsome
    have hres : jsonstore.JsonDB.Delete true db id = (.error "failed to save db", db) := by
      unfold jsonstore.JsonDB.Delete
      rw [hsome]
      simp [hauto]
      rw [← hauto]
    refine ⟨hres, ?_, ?_⟩
    · rw [hres]
      exact hsome
    · rw [hres]

/-- Witness for C2: the amended rollback applied to a concrete one-record
v2 store whose auto-save fails during Delete. -/
theorem c2_v2_rollback_witness :
    jsonstore.JsonDB.Delete true fixtures.v2One "a" = (.error "failed to save db", fixtures.v2One) ∧
    (jsonstore.JsonDB.Delete true fixtures.v2One "a").2.Get "a" = some 7 := by
  have h := (c2_v2_rollback fixtures.v2One "a" 0 7 rfl).2.2 rfl
  exact ⟨h.1, h.2.1⟩

/-- Counterexample for C2 as stated: the v1 JsonDB does not roll back.  On
a failed auto-save, a v1 Insert keeps the inserted record (Get returns it
and Count grows) and a v1 Delete keeps the deletion (Get returns NotFound
instead of the old value, Count shrinks), in both cases returning the save
error. -/
theorem c2_v1_no_rollback :
    ((jsonstorev1.JsonDB.Insert true fixtures.v1Empty "a" 7).1 =
        .error "failed to write temp file" ∧
      (jsonstorev1.JsonDB.Insert true fixtures.v1Empty "a" 7).2.Get "a" = some 7 ∧
      (jsonstorev1.JsonDB.Insert true fixtures.v1Empty "a" 7).2.Count = 1 ∧
      fixtures.v1Empty.Count = 0) ∧
    ((jsonstorev1.JsonDB.Delete true fixtures.v1One "a").1 =
        .error "failed to write temp file" ∧
      (jsonstorev1.JsonDB.Delete true fixtures.v1One "a").2.Get "a" = none ∧
      (jsonstorev1.JsonDB.Delete true fixtures.v1One "a").2.Count = 0 ∧
      fixtures.v1One.Get "a" = some 7) :=
  ⟨⟨rfl, rfl, rfl, rfl⟩, ⟨rfl, rfl, rfl, rfl⟩⟩

namespace configmanager

theorem append_tmp_ne (path : String) : ¬ path ++ ".tmp" = path := by
  intro h
  have hl := congrArg String.length h
  rw [String.length_append] at hl
  have h4 : (".tmp" : String).length = 4 := rfl
  omega

end configmanager

/-- Claim C1 (amended): jsonstore's `writeToFile` removes the temporary
file and leaves the target untouched on every failing step; configmanager's
`atomicSave` leaves the target untouched on every failing step, but removes
the temporary file only on a rename failure and only in its second version
— a failed temp-file write leaves the temp file behind (see the
counterexample). -/
theorem c1_atomic_writers_amended (flt : jsonstore.WriteToFileFaults)
    (sflt : configmanager.SaveFaults) (tmpName : String) (fs fsa : fsmodel.FileSys)
    (data path : String) (hfresh : fs tmpName = none) (hne : tmpName ≠ path) :
    (∀ e fs', jsonstore.writeToFile flt tmpName fs data path = (.error e, fs') →
      fs' tmpName = none ∧ fs' path = fs path) ∧
    (∀ e fs', configmanager.atomicSaveA sflt fsa data path = (.error e, fs') →
      fs' path = fsa path) ∧
    (∀ e fs', configmanager.atomicSaveB sflt fsa data path = (.error e, fs') →
      fs' path = fsa path) ∧
    (sflt.write = .success → sflt.renameOk = false →
      (configmanager.atomicSaveB sflt fsa data path).2 (path ++ ".tmp") = none) := by
  have htmp := configmanager.append_tmp_ne path
  have htmp' : ¬ path = path ++ ".tmp" := fun hp => htmp hp.symm
  obtain ⟨mk, ct, wo, lo, so, co, ro⟩ := flt
  obtain ⟨w, rr⟩ := sflt
  refine ⟨?_, ?_, ?_, ?_⟩
  · intro e fs' h
    cases mk <;> cases ct <;> cases wo <;> cases so <;> cases co <;> cases ro <;>
      simp [jsonstore.writeToFile] at h <;>
      (obtain ⟨he, hf⟩ := h
       subst hf
       exact ⟨by simp [fsmodel.fsErase, hfresh],
         by simp [fsmodel.fsErase, fsmodel.fsSet, Ne.symm hne, hfresh]⟩)
  · intro e fs' h
    cases w <;> cases rr <;>
      simp [configmanager.atomicSaveA, configmanager.writeFileModel] at h <;>
      (obtain ⟨he, hf⟩ := h
       subst hf
       simp [fsmodel.fsErase, fsmodel.fsSet, htmp, htmp'])
  · intro e fs' h
    cases w <;> cases rr <;>
      simp [configmanager.atomicSaveB, configmanager.writeFileModel] at h <;>
      (obtain ⟨he, hf⟩ := h
       subst hf
       simp [fsmodel.fsErase, fsmodel.fsSet, htmp, htmp'])
  · intro hw hr
    subst hw
    subst hr
    simp [configmanager.atomicSaveB, configmanager.writeFileModel, fsmodel.fsErase]

/-- Witness for C1 (amended): a failed sync in `writeToFile` leaves no temp
file behind, and a failed rename in the second-version `atomicSave` removes
its temp file. -/
theorem c1_atomic_writers_witness :
    (jsonstore.writeToFile fixtures.syncFailFaults "/cfg/tmp-1"
        (fun _ => none) "new" "/cfg/config.toml").2 "/cfg/tmp-1" = none ∧
    (configmanager.atomicSaveB fixtures.renameFailFaults fixtures.fsOld
        "new" "/cfg/config.toml").2 "/cfg/config.toml.tmp" = none := by
  have h := c1_atomic_writers_amended fixtures.syncFailFaults fixtures.renameFailFaults
    "/cfg/tmp-1" (fun _ => none) fixtures.fsOld "new" "/cfg/config.toml" rfl (by decide)
  refine ⟨?_, h.2.2.2 rfl rfl⟩
  exact (h.1 "sync failed"
    ((jsonstore.writeToFile fixtures.syncFailFaults "/cfg/tmp-1"
      (fun _ => none) "new" "/cfg/config.toml").2) rfl).1

/-- Counterexample for C1 as stated: in configmanager's `atomicSave` a
failing temp-file write returns an error but leaves the temporary file (and
its partial content) in place — it is not removed. -/
theorem c1_temp_left_after_failed_write :
    (configmanager.atomicSaveA fixtures.writeFailFaults fixtures.fsOld
        "new" "/cfg/config.toml").1 = .error "failed to save to tmp file: write failed" ∧
    (configmanager.atomicSaveA fixtures.writeFailFaults fixtures.fsOld
        "new" "/cfg/config.toml").2 "/cfg/config.toml.tmp" = some "par" ∧
    (configmanager.atomicSaveA fixtures.writeFailFaults fixtures.fsOld
        "new" "/cfg/config.toml").2 "/cfg/config.toml" = some "old" :=
  ⟨rfl, rfl, rfl⟩

/-- Claim C3 (code bug): with the first-version configmanager at its
default JSON path, `atomicSave` has saved the serialized value and the file
is present and decodable, yet `Load` fails: its extension guard computes
`strings.TrimSuffix(filepath.Ext(path), ".")`, which keeps the leading dot
(".json"), and compares it with "json".  The second version uses
`TrimPrefix`, marking the `TrimSuffix` as a slip. -/
theorem c3_saved_config_load_fails :
    (configmanager.atomicSaveA { write := .success, renameOk := true }
        (fun _ => none) "42" "/home/u/.config/app/config.json").1 = .ok () ∧
    (configmanager.atomicSaveA { write := .success, renameOk := true }
        (fun _ => none) "42" "/home/u/.config/app/config.json").2
        "/home/u/.config/app/config.json" = some "42" ∧
    configmanager.trimSuffix
      (configmanager.filepathExt "/home/u/.config/app/config.json") "." = ".json" ∧
    configmanager.loadA fixtures.loadEnvC3 "/home/u/.config/app/config.json" "json" [] =
      .error "file is extention does not match serialization format" := by
  refine ⟨rfl, rfl, by decide, rfl⟩
